import Mathlib

/-
Verification of the webhook TLS certificate lifecycle manager (package certs):
a shallow embedding of its data model and operations, followed by theorems
about the renewal policy, PKI generation, persistence and trust propagation.
-/

namespace Certs

/-- Extended key usages of the x509 library that this package uses. -/
inductive ExtKeyUsage where
  | serverAuth
  | clientAuth
  deriving DecidableEq

/-- Model of an RSA key pair: the bit size requested from rsa.GenerateKey and
an abstract identifier standing for the generated key material. -/
structure RSAKey where
  bits : Nat
  keyId : Nat
  deriving DecidableEq

/-- Model of a parsed x509 certificate: exactly the fields of
crypto/x509.Certificate that this package reads or sets. Times are integers
(seconds since an arbitrary epoch); keyUsage is the x509 bit mask
(1 digitalSignature, 4 keyEncipherment, 32 certSign, 64 crlSign). -/
structure Certificate where
  serialNumber : Nat
  subjectCN : String
  subjectOrg : List String
  issuerCN : String
  dnsNames : List String
  notBefore : Int
  notAfter : Int
  keyUsage : Nat
  extKeyUsage : List ExtKeyUsage
  basicConstraintsValid : Bool
  isCA : Bool
  pubKeyBits : Nat
  pubKeyId : Nat
  sigKeyId : Nat
  deriving DecidableEq

/-- Symbolic model of byte strings. PEM blocks, DER certificate encodings and
PKCS1 key encodings are separate constructors, so encoding is injective and
decoding is its partial inverse; raw stands for any other bytes (on which
pem.Decode returns nil). -/
inductive Bytes where
  | raw : List Nat → Bytes
  | pemBlock : String → Bytes → Bytes
  | certDER : Certificate → Bytes
  | keyDER : Nat → Bytes
  deriving DecidableEq

/-- Model of pem.Decode: the first block (type and body) of a PEM encoding,
none for anything else. -/
def pemDecode : Bytes → Option (String × Bytes)
  | .pemBlock t b => some (t, b)
  | _ => none

/-- Model of x509.ParseCertificate. -/
def parseCertificate : Bytes → Option Certificate
  | .certDER c => some c
  | _ => none

/-- Length-zero test on byte strings: only the raw empty byte list is empty;
pem.EncodeToMemory output is never empty. -/
def Bytes.isEmpty : Bytes → Bool
  | .raw l => l.isEmpty
  | _ => false

/-- Model of corev1.Secret: the fields the certs package reads or writes. -/
structure SecretObj where
  name : String
  nsName : String
  resourceVersion : String
  secretType : String
  data : List (String × Bytes)
  deriving DecidableEq

/-- Comma-ok map lookup on the Data field. -/
def SecretObj.get (s : SecretObj) (k : String) : Option Bytes :=
  s.data.lookup k

/-- Go map indexing without the ok flag: returns the zero value (nil byte
slice, modelled as raw []) when the key is missing. -/
def SecretObj.getD (s : SecretObj) (k : String) : Bytes :=
  (s.get k).getD (.raw [])

/-- needsRenewal from the source: true when the tls.crt field is absent or
empty, when it fails PEM decoding, when the block fails certificate parsing,
or when the remaining validity (notAfter minus now) is below threshold. The
call time.Until(cert.NotAfter) is modelled by passing now explicitly. -/
def needsRenewal (secret : SecretObj) (threshold : Int) (now : Int) : Bool :=
  match secret.get "tls.crt" with
  | none => true
  | some certPEM =>
    if certPEM.isEmpty then true
    else
      match pemDecode certPEM with
      | none => true
      | some (_, der) =>
        match parseCertificate der with
        | none => true
        | some cert => decide (cert.notAfter - now < threshold)

/-- dnsNamesForService from the source. -/
def dnsNamesForService (serviceName namespaceName : String) : List String :=
  [serviceName ++ "." ++ namespaceName ++ ".svc",
   serviceName ++ "." ++ namespaceName ++ ".svc.cluster.local"]

/-- Test that pat occurs at the head of s; models the Go slice comparison
name[i:i+len(old)] == old at a single position i (false as well when fewer
than len(old) characters remain, matching the loop bound). -/
def leadEq : List Char → List Char → Bool
  | [], _ => true
  | _ :: _, [] => false
  | p :: ps, c :: cs => p == c && leadEq ps cs

/-- Loop of mutatingWebhookName from the source, as a recursion over the
scanned suffix: at each position, if old occurs here, splice new in place of
it and stop; otherwise keep the character and scan on; return the input
unchanged when no position matches. -/
def replaceFirstGo (old new : List Char) : List Char → List Char
  | [] => []
  | c :: rest =>
    if leadEq old (c :: rest) then new ++ (c :: rest).drop old.length
    else c :: replaceFirstGo old new rest

/-- mutatingWebhookName from the source: replace the first occurrence of
"validating" with "mutating", scanning left to right. -/
def mutatingWebhookName (validatingName : String) : String :=
  String.mk (replaceFirstGo "validating".toList "mutating".toList validatingName.toList)

/-- Substring occurrence test, used to state the degenerate case of the name
derivation (no occurrence of the marker anywhere). -/
def containsSeq (pat : List Char) : List Char → Bool
  | [] => leadEq pat []
  | c :: rest => leadEq pat (c :: rest) || containsSeq pat rest

deriving instance DecidableEq for Except

/-- Environment of one generation call: the outcomes of the randomized and
fallible library calls it performs (rsa.GenerateKey, rand.Int for the serial
number, x509.CreateCertificate, and the re-parse step of generateCA), plus
the value time.Now() returns inside it. -/
structure GenEnv where
  keySeed : Except String Nat
  serial : Except String Nat
  createOK : Bool
  parseOK : Bool
  now : Int
  deriving DecidableEq

/-- Model of x509.CreateCertificate: on success, the DER encoding of a
certificate carrying the template fields, the issuer taken from the parent
certificate's subject, the given public key, and a signature by the given
signing key; none models a construction or signing failure. -/
def createCertificate (ok : Bool) (tmpl parent : Certificate)
    (pubBits pubId : Nat) (signKey : RSAKey) : Option Bytes :=
  if ok then
    some (.certDER { tmpl with issuerCN := parent.subjectCN,
                               pubKeyBits := pubBits, pubKeyId := pubId,
                               sigKeyId := signKey.keyId })
  else none

/-- generateCA from the source: a 4096-bit RSA key, a random serial, a
self-signed CA template (common name webhook-ca, organization
butane-operator, certSign and crlSign usage, validity [now, now+validity]),
created, re-parsed, and PEM-encoded. -/
def generateCA (env : GenEnv) (validity : Int) :
    Except String (Certificate × RSAKey × Bytes) :=
  match env.keySeed with
  | .error e => .error ("generating CA key: " ++ e)
  | .ok seed =>
    let key : RSAKey := { bits := 4096, keyId := seed }
    match env.serial with
    | .error e => .error ("generating serial number: " ++ e)
    | .ok serial =>
      let now := env.now
      let tmpl : Certificate :=
        { serialNumber := serial
          subjectCN := "webhook-ca"
          subjectOrg := ["butane-operator"]
          issuerCN := ""
          dnsNames := []
          notBefore := now
          notAfter := now + validity
          keyUsage := 32 ||| 64
          extKeyUsage := []
          basicConstraintsValid := true
          isCA := true
          pubKeyBits := 0
          pubKeyId := 0
          sigKeyId := 0 }
      match createCertificate env.createOK tmpl tmpl key.bits key.keyId key with
      | none => .error "creating CA certificate"
      | some der =>
        if env.parseOK then
          match parseCertificate der with
          | none => .error "parsing CA certificate"
          | some cert => .ok (cert, key, .pemBlock "CERTIFICATE" der)
        else .error "parsing CA certificate"

/-- generateServerCert from the source: a 2048-bit RSA key, a random serial,
a non-CA template (common name dnsNames[0], the given DNS names,
digitalSignature and keyEncipherment usage, serverAuth extended usage,
validity [now, now+validity]) signed by the CA key, PEM-encoded together
with the PKCS1 private key. Go indexing dnsNames[0] is rendered as headD;
the one caller always passes a two-element list. -/
def generateServerCert (env : GenEnv) (caCert : Certificate) (caKey : RSAKey)
    (dnsNames : List String) (validity : Int) :
    Except String (Bytes × Bytes) :=
  match env.keySeed with
  | .error e => .error ("generating server key: " ++ e)
  | .ok seed =>
    let key : RSAKey := { bits := 2048, keyId := seed }
    match env.serial with
    | .error e => .error ("generating serial number: " ++ e)
    | .ok serial =>
      let now := env.now
      let tmpl : Certificate :=
        { serialNumber := serial
          subjectCN := dnsNames.headD ""
          subjectOrg := ["butane-operator"]
          issuerCN := ""
          dnsNames := dnsNames
          notBefore := now
          notAfter := now + validity
          keyUsage := 1 ||| 4
          extKeyUsage := [.serverAuth]
          basicConstraintsValid := false
          isCA := false
          pubKeyBits := 0
          pubKeyId := 0
          sigKeyId := 0 }
      match createCertificate env.createOK tmpl caCert key.bits key.keyId caKey with
      | none => .error "creating server certificate"
      | some der =>
        .ok (.pemBlock "CERTIFICATE" der,
             .pemBlock "RSA PRIVATE KEY" (.keyDER key.keyId))

/-- Model of x509 chain verification with server-auth usage against a single
root: the leaf's signature checks against the root's public key, the root is
a CA allowed to sign certificates, the time lies inside both validity
windows, the DNS name is among the leaf's names, and the leaf carries the
serverAuth extended usage. -/
def chainVerify (root leaf : Certificate) (t : Int) (dnsName : String) : Bool :=
  (leaf.sigKeyId == root.pubKeyId) && root.isCA
    && (root.keyUsage &&& 32 != 0)
    && decide (root.notBefore ≤ t) && decide (t ≤ root.notAfter)
    && decide (leaf.notBefore ≤ t) && decide (t ≤ leaf.notAfter)
    && leaf.dnsNames.contains dnsName
    && leaf.extKeyUsage.contains .serverAuth

/-- Model of one admissionregistration webhook entry: its ClientConfig
CABundle field. -/
structure Webhook where
  whName : String
  caBundle : Bytes
  deriving DecidableEq

/-- Model of a Validating/MutatingWebhookConfiguration object. -/
structure WebhookConfig where
  wcName : String
  webhooks : List Webhook
  deriving DecidableEq

/-- Kubernetes API error shape as far as the code discriminates it:
apierrors.IsNotFound versus anything else. -/
inductive K8sErr where
  | notFound
  | other (msg : String)
  deriving DecidableEq

/-- API and filesystem calls issued during one pass, in order; failed calls
are logged too, since they were issued. -/
inductive Op where
  | getSecret (nsName name : String)
  | updateSecret (nsName : String) (s : SecretObj)
  | createSecret (nsName : String) (s : SecretObj)
  | getVWC (name : String)
  | updateVWC (w : WebhookConfig)
  | getMWC (name : String)
  | updateMWC (w : WebhookConfig)
  | mkdirAll (dir : String)
  | writeFile (path : String) (content : Bytes)
  deriving DecidableEq

/-- Is this operation a write against the Secret store? -/
def Op.isSecretWrite : Op → Bool
  | .updateSecret _ _ => true
  | .createSecret _ _ => true
  | _ => false

/-- Is this operation an update of the ValidatingWebhookConfiguration? -/
def Op.isUpdateVWC : Op → Bool
  | .updateVWC _ => true
  | _ => false

/-- Fault injection for the environment: a true flag makes the corresponding
API or filesystem call fail with an error that is not a not-found. -/
structure Faults where
  getSecret : Bool
  updateSecret : Bool
  createSecret : Bool
  getVWC : Bool
  updateVWC : Bool
  getMWC : Bool
  updateMWC : Bool
  mkdirAll : Bool
  writeCrt : Bool
  writeKey : Bool
  deriving DecidableEq

/-- State the pass runs against: the Secret store (keyed by namespace and
name), the two webhook-configuration stores (cluster scoped, keyed by name),
the local filesystem (directories and files), and the injected faults. -/
structure SysState where
  secrets : List ((String × String) × SecretObj)
  vwcs : List (String × WebhookConfig)
  mwcs : List (String × WebhookConfig)
  dirs : List String
  disk : List (String × Bytes)
  faults : Faults
  deriving DecidableEq

/-- Store update: overwrite the value under a key, or append it when new. -/
def setAssoc {α β : Type} [BEq α] (k : α) (v : β) : List (α × β) → List (α × β)
  | [] => [(k, v)]
  | (k0, v0) :: rest =>
    if k0 == k then (k, v) :: rest else (k0, v0) :: setAssoc k v rest

/-- writeCertsToDisk from the source: ensure the directory (0750), then write
tls.crt and tls.key (0640); the first failure aborts with a wrapped error. -/
def writeCertsToDisk (st : SysState) (certDir : String) (certPEM keyPEM : Bytes) :
    Except String Unit × SysState × List Op :=
  if st.faults.mkdirAll then
    (.error ("creating cert dir " ++ certDir), st, [.mkdirAll certDir])
  else
    let st1 := { st with dirs := if st.dirs.contains certDir then st.dirs
                                 else certDir :: st.dirs }
    if st.faults.writeCrt then
      (.error "writing tls.crt", st1,
       [.mkdirAll certDir, .writeFile (certDir ++ "/tls.crt") certPEM])
    else
      let st2 := { st1 with disk := setAssoc (certDir ++ "/tls.crt") certPEM st1.disk }
      if st.faults.writeKey then
        (.error "writing tls.key", st2,
         [.mkdirAll certDir, .writeFile (certDir ++ "/tls.crt") certPEM,
          .writeFile (certDir ++ "/tls.key") keyPEM])
      else
        (.ok (),
         { st2 with disk := setAssoc (certDir ++ "/tls.key") keyPEM st2.disk },
         [.mkdirAll certDir, .writeFile (certDir ++ "/tls.crt") certPEM,
          .writeFile (certDir ++ "/tls.key") keyPEM])

/-- Second half of patchWebhookConfig from the source: fetch the
MutatingWebhookConfiguration under the derived name; when found, overwrite
every entry's CA bundle and update it (the update is issued even for an
empty webhook list); a not-found is skipped silently; any other fetch or
update error is fatal. -/
def patchMutatingHalf (st : SysState) (mwcName : String) (caBundle : Bytes) :
    Except String Unit × SysState × List Op :=
  let getRes : Except K8sErr WebhookConfig :=
    if st.faults.getMWC then .error (.other "transport")
    else match st.mwcs.lookup mwcName with
      | some w => .ok w
      | none => .error .notFound
  match getRes with
  | .ok mwc =>
    let patched : WebhookConfig :=
      { mwc with webhooks := mwc.webhooks.map fun wh => { wh with caBundle := caBundle } }
    if st.faults.updateMWC then
      (.error "updating MutatingWebhookConfiguration", st,
       [.getMWC mwcName, .updateMWC patched])
    else
      (.ok (), { st with mwcs := setAssoc mwcName patched st.mwcs },
       [.getMWC mwcName, .updateMWC patched])
  | .error .notFound => (.ok (), st, [.getMWC mwcName])
  | .error (.other _) =>
    (.error ("getting MutatingWebhookConfiguration " ++ mwcName), st, [.getMWC mwcName])

/-- patchWebhookConfig from the source: fetch the
ValidatingWebhookConfiguration by name (any fetch error, a not-found
included, is fatal), overwrite every entry's CA bundle; the update is issued
only when the loop body ran, that is when the webhook list is non-empty (the
updated flag); then handle the MutatingWebhookConfiguration. -/
def patchWebhookConfig (st : SysState) (name : String) (caBundle : Bytes) :
    Except String Unit × SysState × List Op :=
  let getRes : Except K8sErr WebhookConfig :=
    if st.faults.getVWC then .error (.other "transport")
    else match st.vwcs.lookup name with
      | some w => .ok w
      | none => .error .notFound
  match getRes with
  | .error _ =>
    (.error ("getting ValidatingWebhookConfiguration " ++ name), st, [.getVWC name])
  | .ok vwc =>
    let patched : WebhookConfig :=
      { vwc with webhooks := vwc.webhooks.map fun wh => { wh with caBundle := caBundle } }
    let updated := !vwc.webhooks.isEmpty
    if updated then
      if st.faults.updateVWC then
        (.error "updating ValidatingWebhookConfiguration", st,
         [.getVWC name, .updateVWC patched])
      else
        let st1 := { st with vwcs := setAssoc name patched st.vwcs }
        match patchMutatingHalf st1 (mutatingWebhookName name) caBundle with
        | (r, st2, ops2) => (r, st2, .getVWC name :: .updateVWC patched :: ops2)
    else
      match patchMutatingHalf st (mutatingWebhookName name) caBundle with
      | (r, st2, ops2) => (r, st2, .getVWC name :: ops2)

/-- Config from the source. -/
structure Config where
  serviceName : String
  nsName : String
  secretName : String
  webhookConfigName : String
  certDir : String
  certValidity : Int
  renewalThreshold : Int
  deriving DecidableEq

/-- Regeneration path of Ensure from the source: generate a CA and a leaf
signed by it, build the Secret, update it when a prior object was fetched
(carrying its ResourceVersion forward) or create it otherwise, write the new
material to disk, and patch the webhook configurations with the new CA. -/
def ensureGenerate (st : SysState) (cfg : Config) (existing : Option SecretObj)
    (dnsNames : List String) (envCA envLeaf : GenEnv) (ops0 : List Op) :
    Except String Unit × SysState × List Op :=
  match generateCA envCA cfg.certValidity with
  | .error e => (.error ("generating CA: " ++ e), st, ops0)
  | .ok (caCert, caKey, caPEM) =>
    match generateServerCert envLeaf caCert caKey dnsNames cfg.certValidity with
    | .error e => (.error ("generating server cert: " ++ e), st, ops0)
    | .ok (serverCertPEM, serverKeyPEM) =>
      let secret : SecretObj :=
        { name := cfg.secretName
          nsName := cfg.nsName
          resourceVersion := ""
          secretType := "kubernetes.io/tls"
          data := [("ca.crt", caPEM), ("tls.crt", serverCertPEM),
                   ("tls.key", serverKeyPEM)] }
      let useUpdate : Bool := match existing with
        | some ex => ex.name != ""
        | none => false
      let persist : Except String Unit × SysState × List Op :=
        if useUpdate then
          let rv := match existing with
            | some ex => ex.resourceVersion
            | none => ""
          let secretU := { secret with resourceVersion := rv }
          if st.faults.updateSecret then
            (.error "updating secret", st, [.updateSecret cfg.nsName secretU])
          else
            (.ok (),
             { st with secrets := setAssoc (cfg.nsName, cfg.secretName) secretU st.secrets },
             [.updateSecret cfg.nsName secretU])
        else
          if st.faults.createSecret then
            (.error "creating secret", st, [.createSecret cfg.nsName secret])
          else
            match st.secrets.lookup (cfg.nsName, cfg.secretName) with
            | some _ =>
              (.error "creating secret: already exists", st, [.createSecret cfg.nsName secret])
            | none =>
              (.ok (),
               { st with secrets := setAssoc (cfg.nsName, cfg.secretName) secret st.secrets },
               [.createSecret cfg.nsName secret])
      match persist with
      | (.error e, st1, ops1) => (.error e, st1, ops0 ++ ops1)
      | (.ok _, st1, ops1) =>
        match writeCertsToDisk st1 cfg.certDir serverCertPEM serverKeyPEM with
        | (.error e, st2, ops2) =>
          (.error ("writing certs to disk: " ++ e), st2, ops0 ++ ops1 ++ ops2)
        | (.ok _, st2, ops2) =>
          match patchWebhookConfig st2 cfg.webhookConfigName caPEM with
          | (r, st3, ops3) => (r, st3, ops0 ++ ops1 ++ ops2 ++ ops3)

/-- Ensure from the source: look up the Secret (a non-notFound fetch error is
fatal); when found and needsRenewal is false, write the existing material to
disk and patch the webhook configurations from it; otherwise run the
regeneration path, with the fetched object driving the update-versus-create
branch. The two time.Now() calls inside generation live in the GenEnvs; now
is the time needsRenewal compares against. -/
def Ensure (st : SysState) (cfg : Config) (now : Int) (envCA envLeaf : GenEnv) :
    Except String Unit × SysState × List Op :=
  let dnsNames := dnsNamesForService cfg.serviceName cfg.nsName
  let getRes : Except K8sErr SecretObj :=
    if st.faults.getSecret then .error (.other "transport")
    else match st.secrets.lookup (cfg.nsName, cfg.secretName) with
      | some s => .ok s
      | none => .error .notFound
  let gOp : Op := .getSecret cfg.nsName cfg.secretName
  match getRes with
  | .error (.other _) =>
    (.error ("getting secret " ++ cfg.nsName ++ "/" ++ cfg.secretName), st, [gOp])
  | .error .notFound =>
    ensureGenerate st cfg none dnsNames envCA envLeaf [gOp]
  | .ok existing =>
    if needsRenewal existing cfg.renewalThreshold now then
      ensureGenerate st cfg (some existing) dnsNames envCA envLeaf [gOp]
    else
      match writeCertsToDisk st cfg.certDir (existing.getD "tls.crt") (existing.getD "tls.key") with
      | (.error e, st1, ops1) =>
        (.error ("writing existing certs to disk: " ++ e), st1, gOp :: ops1)
      | (.ok _, st1, ops1) =>
        match patchWebhookConfig st1 cfg.webhookConfigName (existing.getD "ca.crt") with
        | (r, st2, ops2) => (r, st2, gOp :: (ops1 ++ ops2))

/-- Renewal conditions exactly as the spec words them: leaf field absent, or
empty, or PEM decoding fails, or certificate parsing fails, or remaining
validity (notAfter minus now) is below threshold. -/
def renewalRequiredSpec (secret : SecretObj) (threshold now : Int) : Prop :=
  secret.get "tls.crt" = none
  ∨ (∃ b, secret.get "tls.crt" = some b ∧ b.isEmpty = true)
  ∨ (∃ b, secret.get "tls.crt" = some b ∧ b.isEmpty = false ∧ pemDecode b = none)
  ∨ (∃ b t der, secret.get "tls.crt" = some b ∧ b.isEmpty = false
        ∧ pemDecode b = some (t, der) ∧ parseCertificate der = none)
  ∨ (∃ b t der cert, secret.get "tls.crt" = some b ∧ b.isEmpty = false
        ∧ pemDecode b = some (t, der) ∧ parseCertificate der = some cert
        ∧ cert.notAfter - now < threshold)

/-- Fixture: no injected faults. -/
def noFaults : Faults :=
  { getSecret := false, updateSecret := false, createSecret := false
    getVWC := false, updateVWC := false, getMWC := false, updateMWC := false
    mkdirAll := false, writeCrt := false, writeKey := false }

/-- Fixture: an authority certificate as generateCA shapes it. -/
def caFix : Certificate :=
  { serialNumber := 1, subjectCN := "webhook-ca", subjectOrg := ["butane-operator"]
    issuerCN := "webhook-ca", dnsNames := [], notBefore := 0, notAfter := 1000
    keyUsage := 96, extKeyUsage := [], basicConstraintsValid := true, isCA := true
    pubKeyBits := 4096, pubKeyId := 10, sigKeyId := 10 }

/-- Fixture: a leaf certificate as generateServerCert shapes it, with a
chosen notAfter. -/
def leafFix (na : Int) : Certificate :=
  { serialNumber := 2, subjectCN := "webhook-service.my-ns.svc"
    subjectOrg := ["butane-operator"], issuerCN := "webhook-ca"
    dnsNames := dnsNamesForService "webhook-service" "my-ns"
    notBefore := 0, notAfter := na, keyUsage := 5, extKeyUsage := [.serverAuth]
    basicConstraintsValid := false, isCA := false, pubKeyBits := 2048
    pubKeyId := 11, sigKeyId := 10 }

/-- Fixture: a trust record Secret whose leaf expires at na. -/
def secretFix (na : Int) : SecretObj :=
  { name := "webhook-server-cert", nsName := "my-ns", resourceVersion := "41"
    secretType := "kubernetes.io/tls"
    data := [("ca.crt", .pemBlock "CERTIFICATE" (.certDER caFix)),
             ("tls.crt", .pemBlock "CERTIFICATE" (.certDER (leafFix na))),
             ("tls.key", .pemBlock "RSA PRIVATE KEY" (.keyDER 11))] }

/-- Fixture: a primary webhook configuration with one entry. -/
def vwcFix : WebhookConfig :=
  { wcName := "butane-operator-validating-webhook-configuration"
    webhooks := [{ whName := "vbutaneconfig.kb.io", caBundle := .raw [1] }] }

/-- Fixture: a secondary webhook configuration with one entry. -/
def mwcFix : WebhookConfig :=
  { wcName := "butane-operator-mutating-webhook-configuration"
    webhooks := [{ whName := "mbutaneconfig.kb.io", caBundle := .raw [1] }] }

/-- Fixture: a cluster holding the trust record (leaf expiring at na) and
both webhook configurations, no faults. -/
def stFix (na : Int) : SysState :=
  { secrets := [(("my-ns", "webhook-server-cert"), secretFix na)]
    vwcs := [("butane-operator-validating-webhook-configuration", vwcFix)]
    mwcs := [("butane-operator-mutating-webhook-configuration", mwcFix)]
    dirs := [], disk := [], faults := noFaults }

/-- Fixture: a cluster whose primary webhook configuration exists with an
empty webhook list. -/
def stEmptyVWC : SysState :=
  { secrets := []
    vwcs := [("butane-operator-validating-webhook-configuration",
              { wcName := "butane-operator-validating-webhook-configuration"
                webhooks := [] })]
    mwcs := [], dirs := [], disk := [], faults := noFaults }

/-- Fixture: the provisioning configuration. -/
def cfgFix : Config :=
  { serviceName := "webhook-service", nsName := "my-ns"
    secretName := "webhook-server-cert"
    webhookConfigName := "butane-operator-validating-webhook-configuration"
    certDir := "/tmp/k8s-webhook-server/serving-certs"
    certValidity := 1000, renewalThreshold := 30 }

/-- Fixture: a generation environment whose library calls all succeed. -/
def envFix (seed serial : Nat) (now : Int) : GenEnv :=
  { keySeed := .ok seed, serial := .ok serial
    createOK := true, parseOK := true, now := now }

/-- Overwrite the CA bundle of every webhook entry of a configuration. -/
def patchCfg (ca : Bytes) (w : WebhookConfig) : WebhookConfig :=
  { w with webhooks := w.webhooks.map fun wh => { wh with caBundle := ca } }

/-- Renewal conditions exactly as the spec words them: leaf field absent, or
empty, or PEM decoding fails, or certificate parsing fails, or remaining
validity (notAfter minus now) is below threshold. -/

def caCertFix : Certificate :=
  { serialNumber := 6, subjectCN := "webhook-ca", subjectOrg := ["butane-operator"]
    issuerCN := "webhook-ca", dnsNames := [], notBefore := 100, notAfter := 1100
    keyUsage := 96, extKeyUsage := [], basicConstraintsValid := true, isCA := true
    pubKeyBits := 4096, pubKeyId := 5, sigKeyId := 5 }

def caKeyFix : RSAKey := { bits := 4096, keyId := 5 }

def caPEMFix : Bytes := .pemBlock "CERTIFICATE" (.certDER caCertFix)

def leafCertFix : Certificate :=
  { serialNumber := 8, subjectCN := "webhook-service.my-ns.svc"
    subjectOrg := ["butane-operator"], issuerCN := "webhook-ca"
    dnsNames := dnsNamesForService "webhook-service" "my-ns"
    notBefore := 100, notAfter := 1100, keyUsage := 5, extKeyUsage := [.serverAuth]
    basicConstraintsValid := false, isCA := false, pubKeyBits := 2048
    pubKeyId := 7, sigKeyId := 5 }

def crtPEMFix : Bytes := .pemBlock "CERTIFICATE" (.certDER leafCertFix)

def keyPEMFix : Bytes := .pemBlock "RSA PRIVATE KEY" (.keyDER 7)

def secUFix : SecretObj :=
  { name := "webhook-server-cert", nsName := "my-ns", resourceVersion := "41"
    secretType := "kubernetes.io/tls"
    data := [("ca.crt", caPEMFix), ("tls.crt", crtPEMFix), ("tls.key", keyPEMFix)] }

theorem lookup_setAssoc {α β : Type} [BEq α] [LawfulBEq α] (k : α) (v : β) (l : List (α × β)) :
    (setAssoc k v l).lookup k = some v := by
  induction l with
  | nil => simp [setAssoc, List.lookup]
  | cons p rest ih =>
    obtain ⟨k0, v0⟩ := p
    by_cases h : k0 = k
    · simp [setAssoc, h, List.lookup]
    · have hb : (k0 == k) = false := by
        simp only [beq_eq_false_iff_ne, ne_eq]; exact h
      have hb2 : (k == k0) = false := by
        simp only [beq_eq_false_iff_ne, ne_eq]; exact fun hc => h hc.symm
      simp [setAssoc, hb, List.lookup, hb2, ih]

theorem lookup_setAssoc_ne {α β : Type} [BEq α] [LawfulBEq α] (k k1 : α) (v : β)
    (l : List (α × β)) (h : k1 ≠ k) :
    (setAssoc k v l).lookup k1 = l.lookup k1 := by
  have hb : (k1 == k) = false := by
    simp only [beq_eq_false_iff_ne, ne_eq]; exact h
  induction l with
  | nil => simp [setAssoc, List.lookup, hb]
  | cons p rest ih =>
    obtain ⟨k0, v0⟩ := p
    by_cases h0 : k0 = k
    · subst h0
      simp [setAssoc, List.lookup, hb]
    · have hb0 : (k0 == k) = false := by
        simp only [beq_eq_false_iff_ne, ne_eq]; exact h0
      simp [setAssoc, hb0, List.lookup, ih]

theorem string_data_app (s t : String) : (s ++ t).data = s.data ++ t.data := rfl

theorem crtKeyPathNe (d : String) : d ++ "/tls.crt" ≠ d ++ "/tls.key" := by
  intro h
  have h2 : (d ++ "/tls.crt").data = (d ++ "/tls.key").data := by rw [h]
  rw [string_data_app, string_data_app] at h2
  have h3 := List.append_cancel_left h2
  simp at h3

theorem leadEq_iff (p l : List Char) : leadEq p l = true ↔ ∃ t, l = p ++ t := by
  induction p generalizing l with
  | nil => simp [leadEq]
  | cons x xs ih =>
    cases l with
    | nil => simp [leadEq]
    | cons c cs =>
      simp only [leadEq, Bool.and_eq_true, beq_iff_eq, ih, List.cons_append]
      constructor
      · rintro ⟨hx, t, ht⟩
        exact ⟨t, by rw [hx, ht]⟩
      · rintro ⟨t, ht⟩
        injection ht with h1 h2
        exact ⟨h1.symm, t, h2⟩

theorem replaceFirstGo_id (old new : List Char) (l : List Char)
    (h : containsSeq old l = false) : replaceFirstGo old new l = l := by
  induction l with
  | nil => simp [replaceFirstGo]
  | cons c rest ih =>
    simp only [containsSeq, Bool.or_eq_false_iff] at h
    simp [replaceFirstGo, h.1, ih h.2]

theorem replaceFirstGo_first (old new : List Char) (hne : old ≠ []) :
    ∀ (u v l : List Char), l = u ++ old ++ v →
      (∀ u1 v1, l = u1 ++ old ++ v1 → u.length ≤ u1.length) →
      replaceFirstGo old new l = u ++ new ++ v := by
  intro u
  induction u with
  | nil =>
    intro v l hl _
    subst hl
    simp only [List.nil_append]
    cases hold : old with
    | nil => exact absurd hold hne
    | cons c cs =>
      have hle : leadEq (c :: cs) (c :: (cs ++ v)) = true := by
        rw [leadEq_iff]; exact ⟨v, by simp⟩
      show replaceFirstGo (c :: cs) new (c :: (cs ++ v)) = new ++ v
      rw [replaceFirstGo, if_pos hle]
      have hdrop : (c :: (cs ++ v)).drop (c :: cs).length = v := by
        show ((c :: cs) ++ v).drop (c :: cs).length = v
        exact List.drop_left (c :: cs) v
      rw [hdrop]
  | cons c u0 ih =>
    intro v l hl hmin
    subst hl
    have hlead : leadEq old (c :: (u0 ++ old ++ v)) = false := by
      by_contra hc
      rw [Bool.not_eq_false, leadEq_iff] at hc
      obtain ⟨t, ht⟩ := hc
      have := hmin [] t (by simpa using ht)
      simp at this
    show replaceFirstGo old new (c :: (u0 ++ old ++ v)) = (c :: u0) ++ new ++ v
    rw [replaceFirstGo, if_neg (by simp only [List.append_assoc] at hlead; simp [hlead])]
    have hrec := ih v (u0 ++ old ++ v) rfl ?_
    · rw [hrec]; simp
    · intro u1 v1 h1
      have := hmin (c :: u1) v1 (by simp [h1])
      simpa using this

theorem writeCertsToDisk_frame (st : SysState) (d : String) (c k : Bytes) :
    (writeCertsToDisk st d c k).2.1.secrets = st.secrets
    ∧ (writeCertsToDisk st d c k).2.1.vwcs = st.vwcs
    ∧ (writeCertsToDisk st d c k).2.1.mwcs = st.mwcs
    ∧ (writeCertsToDisk st d c k).2.1.faults = st.faults
    ∧ (writeCertsToDisk st d c k).2.2.filter Op.isSecretWrite = []
    ∧ (writeCertsToDisk st d c k).2.2.filter Op.isUpdateVWC = [] := by
  unfold writeCertsToDisk
  cases h1 : st.faults.mkdirAll with
  | true => simp [Op.isSecretWrite, Op.isUpdateVWC, List.filter]
  | false =>
    cases h2 : st.faults.writeCrt with
    | true => simp [Op.isSecretWrite, Op.isUpdateVWC, List.filter]
    | false =>
      cases h3 : st.faults.writeKey with
      | true => simp [Op.isSecretWrite, Op.isUpdateVWC, List.filter]
      | false => simp [Op.isSecretWrite, Op.isUpdateVWC, List.filter]

theorem patchMutatingHalf_frame (st : SysState) (n : String) (ca : Bytes) :
    (patchMutatingHalf st n ca).2.1.secrets = st.secrets
    ∧ (patchMutatingHalf st n ca).2.1.vwcs = st.vwcs
    ∧ (patchMutatingHalf st n ca).2.1.disk = st.disk
    ∧ (patchMutatingHalf st n ca).2.1.dirs = st.dirs
    ∧ (patchMutatingHalf st n ca).2.1.faults = st.faults
    ∧ (patchMutatingHalf st n ca).2.2.filter Op.isSecretWrite = []
    ∧ (patchMutatingHalf st n ca).2.2.filter Op.isUpdateVWC = [] := by
  unfold patchMutatingHalf
  cases h1 : st.faults.getMWC with
  | true => simp [Op.isSecretWrite, Op.isUpdateVWC, List.filter]
  | false =>
    cases h2 : st.mwcs.lookup n with
    | none => simp [Op.isSecretWrite, Op.isUpdateVWC, List.filter]
    | some w =>
      cases h3 : st.faults.updateMWC with
      | true => simp [Op.isSecretWrite, Op.isUpdateVWC, List.filter]
      | false => simp [Op.isSecretWrite, Op.isUpdateVWC, List.filter]

theorem patchWebhookConfig_frame (st : SysState) (n : String) (ca : Bytes) :
    (patchWebhookConfig st n ca).2.1.secrets = st.secrets
    ∧ (patchWebhookConfig st n ca).2.1.disk = st.disk
    ∧ (patchWebhookConfig st n ca).2.1.dirs = st.dirs
    ∧ (patchWebhookConfig st n ca).2.1.faults = st.faults
    ∧ (patchWebhookConfig st n ca).2.2.filter Op.isSecretWrite = [] := by
  simp only [patchWebhookConfig]
  split <;> (try split) <;> (try split) <;>
    simp [patchMutatingHalf_frame, Op.isSecretWrite, List.filter]

theorem writeCertsToDisk_frame_eq (st : SysState) (d : String) (c k : Bytes)
    (r : Except String Unit) (st1 : SysState) (ops1 : List Op)
    (h : writeCertsToDisk st d c k = (r, st1, ops1)) :
    st1.secrets = st.secrets ∧ st1.vwcs = st.vwcs ∧ st1.mwcs = st.mwcs
    ∧ st1.faults = st.faults ∧ ops1.filter Op.isSecretWrite = []
    ∧ ops1.filter Op.isUpdateVWC = [] := by
  have hF := writeCertsToDisk_frame st d c k
  rw [h] at hF
  simpa using hF

theorem patchWebhookConfig_frame_eq (st : SysState) (n : String) (ca : Bytes)
    (r : Except String Unit) (st1 : SysState) (ops1 : List Op)
    (h : patchWebhookConfig st n ca = (r, st1, ops1)) :
    st1.secrets = st.secrets ∧ st1.disk = st.disk ∧ st1.dirs = st.dirs
    ∧ st1.faults = st.faults ∧ ops1.filter Op.isSecretWrite = [] := by
  have hF := patchWebhookConfig_frame st n ca
  rw [h] at hF
  simpa using hF

theorem writeCertsToDisk_ok (st : SysState) (d : String) (c k : Bytes)
    (h1 : st.faults.mkdirAll = false) (h2 : st.faults.writeCrt = false)
    (h3 : st.faults.writeKey = false) :
    writeCertsToDisk st d c k =
      (.ok (),
       { st with dirs := if st.dirs.contains d then st.dirs else d :: st.dirs,
                 disk := setAssoc (d ++ "/tls.key") k (setAssoc (d ++ "/tls.crt") c st.disk) },
       [.mkdirAll d, .writeFile (d ++ "/tls.crt") c, .writeFile (d ++ "/tls.key") k]) := by
  simp [writeCertsToDisk, h1, h2, h3]

theorem patchMutatingHalf_absent (st : SysState) (n1 : String) (ca : Bytes)
    (h3 : st.faults.getMWC = false) (hl : st.mwcs.lookup n1 = none) :
    patchMutatingHalf st n1 ca = (.ok (), st, [.getMWC n1]) := by
  simp [patchMutatingHalf, h3, hl]

theorem patchMutatingHalf_found (st : SysState) (n1 : String) (ca : Bytes)
    (w1 : WebhookConfig)
    (h3 : st.faults.getMWC = false) (h4 : st.faults.updateMWC = false)
    (hl : st.mwcs.lookup n1 = some w1) :
    patchMutatingHalf st n1 ca =
      (.ok (),
       { st with mwcs := setAssoc n1 (patchCfg ca w1) st.mwcs },
       [.getMWC n1, .updateMWC (patchCfg ca w1)]) := by
  simp [patchMutatingHalf, h3, h4, hl, patchCfg]

theorem patchMutatingHalf_ok_iff (st : SysState) (n1 : String) (ca : Bytes) :
    ((patchMutatingHalf st n1 ca).1 = .ok ()) ↔
      (st.faults.getMWC = false
       ∧ (st.mwcs.lookup n1 = none ∨ st.faults.updateMWC = false)) := by
  cases h3 : st.faults.getMWC with
  | true => simp [patchMutatingHalf, h3]
  | false =>
    cases hl : st.mwcs.lookup n1 with
    | none => simp [patchMutatingHalf, h3, hl]
    | some w1 =>
      cases h4 : st.faults.updateMWC with
      | true => simp [patchMutatingHalf, h3, hl, h4]
      | false => simp [patchMutatingHalf, h3, hl, h4]

theorem patchCfg_nil (ca : Bytes) (w : WebhookConfig) (h : w.webhooks = []) :
    patchCfg ca w = w := by
  cases w
  simp_all [patchCfg]

theorem patchWebhookConfig_empty_eq (st : SysState) (n : String) (ca : Bytes)
    (vwc : WebhookConfig)
    (h1 : st.faults.getVWC = false) (hl : st.vwcs.lookup n = some vwc)
    (hemp : vwc.webhooks = []) :
    patchWebhookConfig st n ca =
      (match patchMutatingHalf st (mutatingWebhookName n) ca with
       | (r, st2, ops2) => (r, st2, .getVWC n :: ops2)) := by
  simp [patchWebhookConfig, h1, hl, hemp]

theorem patchWebhookConfig_found_eq (st : SysState) (n : String) (ca : Bytes)
    (vwc : WebhookConfig)
    (h1 : st.faults.getVWC = false) (hl : st.vwcs.lookup n = some vwc)
    (hne : vwc.webhooks ≠ []) (h2 : st.faults.updateVWC = false) :
    patchWebhookConfig st n ca =
      (match patchMutatingHalf { st with vwcs := setAssoc n (patchCfg ca vwc) st.vwcs }
          (mutatingWebhookName n) ca with
       | (r, st2, ops2) => (r, st2, .getVWC n :: .updateVWC (patchCfg ca vwc) :: ops2)) := by
  simp [patchWebhookConfig, h1, hl, hne, h2, patchCfg]

theorem patchWebhookConfig_ok_iff (st : SysState) (n : String) (ca : Bytes) :
    ((patchWebhookConfig st n ca).1 = .ok ()) ↔
      (st.faults.getVWC = false
       ∧ (∃ w, st.vwcs.lookup n = some w
            ∧ (w.webhooks = [] ∨ st.faults.updateVWC = false))
       ∧ st.faults.getMWC = false
       ∧ (st.mwcs.lookup (mutatingWebhookName n) = none
            ∨ st.faults.updateMWC = false)) := by
  cases h1 : st.faults.getVWC with
  | true => simp [patchWebhookConfig, h1]
  | false =>
    cases hl : st.vwcs.lookup n with
    | none => simp [patchWebhookConfig, h1, hl]
    | some vwc =>
      cases hemp : vwc.webhooks with
      | nil =>
        simp [patchWebhookConfig, h1, hl, hemp, patchMutatingHalf_ok_iff]
      | cons a as =>
        cases h2 : st.faults.updateVWC with
        | true => simp [patchWebhookConfig, h1, hl, hemp, h2]
        | false =>
          simp [patchWebhookConfig, h1, hl, hemp, h2, patchMutatingHalf_ok_iff]

theorem patchWebhookConfig_patches (st : SysState) (n : String) (ca : Bytes)
    (w : WebhookConfig)
    (h1 : st.faults.getVWC = false) (h2 : st.faults.updateVWC = false)
    (h3 : st.faults.getMWC = false) (h4 : st.faults.updateMWC = false)
    (hw : st.vwcs.lookup n = some w) :
    ((patchWebhookConfig st n ca).2.1.vwcs.lookup n = some (patchCfg ca w))
    ∧ (∀ w1, st.mwcs.lookup (mutatingWebhookName n) = some w1 →
        (patchWebhookConfig st n ca).2.1.mwcs.lookup (mutatingWebhookName n)
          = some (patchCfg ca w1)) := by
  by_cases hemp : w.webhooks = []
  · rw [patchWebhookConfig_empty_eq st n ca w h1 hw hemp]
    constructor
    · rcases hM : patchMutatingHalf st (mutatingWebhookName n) ca with ⟨r, st2, ops2⟩
      have hF := patchMutatingHalf_frame st (mutatingWebhookName n) ca
      rw [hM] at hF
      simp only at hF
      dsimp only
      simp [hF.2.1, hw, patchCfg_nil ca w hemp]
    · intro w1 hm1
      rw [patchMutatingHalf_found st (mutatingWebhookName n) ca w1 h3 h4 hm1]
      dsimp only
      exact lookup_setAssoc (mutatingWebhookName n) (patchCfg ca w1) st.mwcs
  · rw [patchWebhookConfig_found_eq st n ca w h1 hw hemp h2]
    constructor
    · rcases hM : patchMutatingHalf { st with vwcs := setAssoc n (patchCfg ca w) st.vwcs } (mutatingWebhookName n) ca with ⟨r, st2, ops2⟩
      have hF := patchMutatingHalf_frame { st with vwcs := setAssoc n (patchCfg ca w) st.vwcs } (mutatingWebhookName n) ca
      rw [hM] at hF
      simp only at hF
      dsimp only
      simp only [hF.2.1]
      exact lookup_setAssoc n (patchCfg ca w) st.vwcs
    · intro w1 hm1
      rw [patchMutatingHalf_found { st with vwcs := setAssoc n (patchCfg ca w) st.vwcs } (mutatingWebhookName n) ca w1 h3 h4 hm1]
      dsimp only
      exact lookup_setAssoc (mutatingWebhookName n) (patchCfg ca w1) st.mwcs

theorem ensure_reuse_eq (st : SysState) (cfg : Config) (now : Int)
    (envCA envLeaf : GenEnv) (s : SecretObj)
    (hget : st.faults.getSecret = false)
    (hs : st.secrets.lookup (cfg.nsName, cfg.secretName) = some s)
    (hren : needsRenewal s cfg.renewalThreshold now = false) :
    Ensure st cfg now envCA envLeaf =
      match writeCertsToDisk st cfg.certDir (s.getD "tls.crt") (s.getD "tls.key") with
      | (.error e, st1, ops1) =>
        (.error ("writing existing certs to disk: " ++ e), st1,
         Op.getSecret cfg.nsName cfg.secretName :: ops1)
      | (.ok _, st1, ops1) =>
        match patchWebhookConfig st1 cfg.webhookConfigName (s.getD "ca.crt") with
        | (r, st2, ops2) =>
          (r, st2, Op.getSecret cfg.nsName cfg.secretName :: (ops1 ++ ops2)) := by
  simp only [Ensure, hget, Bool.false_eq_true, if_false, hs, hren]

theorem ensure_renew_eq (st : SysState) (cfg : Config) (now : Int)
    (envCA envLeaf : GenEnv) (s : SecretObj)
    (hget : st.faults.getSecret = false)
    (hs : st.secrets.lookup (cfg.nsName, cfg.secretName) = some s)
    (hren : needsRenewal s cfg.renewalThreshold now = true) :
    Ensure st cfg now envCA envLeaf
      = ensureGenerate st cfg (some s) (dnsNamesForService cfg.serviceName cfg.nsName)
          envCA envLeaf [.getSecret cfg.nsName cfg.secretName] := by
  simp [Ensure, hget, hs, hren]

theorem ensure_notfound_eq (st : SysState) (cfg : Config) (now : Int)
    (envCA envLeaf : GenEnv)
    (hget : st.faults.getSecret = false)
    (hs : st.secrets.lookup (cfg.nsName, cfg.secretName) = none) :
    Ensure st cfg now envCA envLeaf
      = ensureGenerate st cfg none (dnsNamesForService cfg.serviceName cfg.nsName)
          envCA envLeaf [.getSecret cfg.nsName cfg.secretName] := by
  simp [Ensure, hget, hs]

theorem ensureGenerate_update (st : SysState) (cfg : Config) (ex : SecretObj)
    (dns : List String) (envCA envLeaf : GenEnv) (ops0 : List Op)
    (caCert : Certificate) (caKey : RSAKey) (caPEM crtPEM keyPEM : Bytes)
    (hca : generateCA envCA cfg.certValidity = .ok (caCert, caKey, caPEM))
    (hleaf : generateServerCert envLeaf caCert caKey dns cfg.certValidity = .ok (crtPEM, keyPEM))
    (hname : ex.name ≠ "") (hupd : st.faults.updateSecret = false)
    (hops0 : ops0.filter Op.isSecretWrite = []) :
    (ensureGenerate st cfg (some ex) dns envCA envLeaf ops0).2.2.filter Op.isSecretWrite
      = [.updateSecret cfg.nsName
          { name := cfg.secretName, nsName := cfg.nsName,
            resourceVersion := ex.resourceVersion, secretType := "kubernetes.io/tls",
            data := [("ca.crt", caPEM), ("tls.crt", crtPEM), ("tls.key", keyPEM)] }]
    ∧ (ensureGenerate st cfg (some ex) dns envCA envLeaf ops0).2.1.secrets.lookup
        (cfg.nsName, cfg.secretName)
      = some { name := cfg.secretName, nsName := cfg.nsName,
               resourceVersion := ex.resourceVersion, secretType := "kubernetes.io/tls",
               data := [("ca.crt", caPEM), ("tls.crt", crtPEM), ("tls.key", keyPEM)] } := by
  have hbne : (ex.name != "") = true := by simp [hname]
  simp only [ensureGenerate, hca, hleaf, hbne, hupd, Bool.false_eq_true, if_false, if_true]
  split
  next x e st2 ops2 heq =>
    obtain ⟨e1, e2, e3, e4, e5, e6⟩ := writeCertsToDisk_frame_eq _ _ _ _ _ _ _ heq
    simp [e1, e5, hops0, List.filter_append, List.filter, Op.isSecretWrite, lookup_setAssoc]
  next x u st2 ops2 heq =>
    obtain ⟨e1, e2, e3, e4, e5, e6⟩ := writeCertsToDisk_frame_eq _ _ _ _ _ _ _ heq
    simp [patchWebhookConfig_frame, e1, e5, hops0, List.filter_append, List.filter,
          Op.isSecretWrite, lookup_setAssoc]

theorem ensureGenerate_create (st : SysState) (cfg : Config)
    (dns : List String) (envCA envLeaf : GenEnv) (ops0 : List Op)
    (caCert : Certificate) (caKey : RSAKey) (caPEM crtPEM keyPEM : Bytes)
    (hca : generateCA envCA cfg.certValidity = .ok (caCert, caKey, caPEM))
    (hleaf : generateServerCert envLeaf caCert caKey dns cfg.certValidity = .ok (crtPEM, keyPEM))
    (habs : st.secrets.lookup (cfg.nsName, cfg.secretName) = none)
    (hcre : st.faults.createSecret = false)
    (hops0 : ops0.filter Op.isSecretWrite = []) :
    (ensureGenerate st cfg none dns envCA envLeaf ops0).2.2.filter Op.isSecretWrite
      = [.createSecret cfg.nsName
          { name := cfg.secretName, nsName := cfg.nsName,
            resourceVersion := "", secretType := "kubernetes.io/tls",
            data := [("ca.crt", caPEM), ("tls.crt", crtPEM), ("tls.key", keyPEM)] }]
    ∧ (ensureGenerate st cfg none dns envCA envLeaf ops0).2.1.secrets.lookup
        (cfg.nsName, cfg.secretName)
      = some { name := cfg.secretName, nsName := cfg.nsName,
               resourceVersion := "", secretType := "kubernetes.io/tls",
               data := [("ca.crt", caPEM), ("tls.crt", crtPEM), ("tls.key", keyPEM)] } := by
  simp only [ensureGenerate, hca, hleaf, hcre, habs, Bool.false_eq_true, if_false, if_true]
  split
  next x e st2 ops2 heq =>
    obtain ⟨e1, e2, e3, e4, e5, e6⟩ := writeCertsToDisk_frame_eq _ _ _ _ _ _ _ heq
    simp [e1, e5, hops0, List.filter_append, List.filter, Op.isSecretWrite, lookup_setAssoc]
  next x u st2 ops2 heq =>
    obtain ⟨e1, e2, e3, e4, e5, e6⟩ := writeCertsToDisk_frame_eq _ _ _ _ _ _ _ heq
    simp [patchWebhookConfig_frame, e1, e5, hops0, List.filter_append, List.filter,
          Op.isSecretWrite, lookup_setAssoc]

theorem contains_headD (l : List String) (h : l ≠ []) :
    l.contains (l.headD "") = true := by
  cases l with
  | nil => exact absurd rfl h
  | cons a as => simp [List.headD, List.contains_cons]

/-- Claim C1: needsRenewal returns true exactly when the tls.crt field is absent or empty, or fails PEM decoding, or fails certificate parsing, or the remaining validity (notAfter minus now) is below threshold; it returns false otherwise. -/
theorem c1_needsRenewal (secret : SecretObj) (threshold now : Int) :
    needsRenewal secret threshold now = true ↔ renewalRequiredSpec secret threshold now := by
  unfold needsRenewal renewalRequiredSpec
  cases hg : secret.get "tls.crt" with
  | none => simp
  | some b =>
    cases hb : b.isEmpty with
    | true => simp [hb]
    | false =>
      cases hd : pemDecode b with
      | none => simp [hb, hd]
      | some td =>
        obtain ⟨t, der⟩ := td
        cases hp : parseCertificate der with
        | none =>
          simp only [hb, hd, hp, Bool.false_eq_true, if_false]
          constructor
          · intro _
            exact Or.inr (Or.inr (Or.inr (Or.inl ⟨b, t, der, rfl, hb, hd, hp⟩)))
          · intro _
            trivial
        | some cert =>
          simp only [hb, hd, hp, Bool.false_eq_true, if_false, decide_eq_true_eq]
          constructor
          · intro hlt
            exact Or.inr (Or.inr (Or.inr (Or.inr ⟨b, t, der, cert, rfl, hb, hd, hp, hlt⟩)))
          · rintro (h0 | h0 | h0 | h0 | h0)
            · exact absurd h0 (by simp)
            · obtain ⟨b0, hb0, he0⟩ := h0
              injection hb0 with hbb
              subst hbb
              rw [hb] at he0
              exact absurd he0 (by simp)
            · obtain ⟨b0, hb0, _, hd0⟩ := h0
              injection hb0 with hbb
              subst hbb
              rw [hd] at hd0
              exact absurd hd0 (by simp)
            · obtain ⟨b0, t0, der0, hb0, _, hd0, hp0⟩ := h0
              injection hb0 with hbb
              subst hbb
              rw [hd] at hd0
              injection hd0 with hdd
              injection hdd with ht0 hder0
              subst hder0
              rw [hp] at hp0
              exact absurd hp0 (by simp)
            · obtain ⟨b0, t0, der0, c0, hb0, _, hd0, hp0, hl0⟩ := h0
              injection hb0 with hbb
              subst hbb
              rw [hd] at hd0
              injection hd0 with hdd
              injection hdd with ht0 hder0
              subst hder0
              rw [hp] at hp0
              injection hp0 with hcc
              subst hcc
              exact hl0

/-- Claim C4: DNS identity derivation is pure and returns exactly the two names service.namespace.svc and service.namespace.svc.cluster.local in this order, with the concrete example from the spec. -/
theorem c4_dnsNamesForService (serviceName namespaceName : String) :
    dnsNamesForService serviceName namespaceName
      = [serviceName ++ "." ++ namespaceName ++ ".svc",
         serviceName ++ "." ++ namespaceName ++ ".svc.cluster.local"]
    ∧ dnsNamesForService "webhook-service" "my-ns"
      = ["webhook-service.my-ns.svc", "webhook-service.my-ns.svc.cluster.local"] :=
  ⟨rfl, by decide⟩

/-- Claim C5: the secondary configuration name is derived by replacing the first occurrence of the marker validating with mutating, scanning left to right; a name without the marker is returned unchanged; both concrete examples from the spec hold. -/
theorem c5_mutatingWebhookName :
    mutatingWebhookName "butane-operator-validating-webhook-configuration"
      = "butane-operator-mutating-webhook-configuration"
    ∧ mutatingWebhookName "no-match-here" = "no-match-here"
    ∧ (∀ s : String, containsSeq "validating".toList s.toList = false →
        mutatingWebhookName s = s)
    ∧ (∀ (s : String) (u v : List Char),
        s.toList = u ++ "validating".toList ++ v →
        (∀ u1 v1, s.toList = u1 ++ "validating".toList ++ v1 → u.length ≤ u1.length) →
        (mutatingWebhookName s).toList = u ++ "mutating".toList ++ v) := by
  refine ⟨by decide, by decide, ?_, ?_⟩
  · intro s h
    show String.mk (replaceFirstGo "validating".toList "mutating".toList s.toList) = s
    rw [replaceFirstGo_id _ _ _ h]
    rfl
  · intro s u v hs hmin
    show (String.mk (replaceFirstGo "validating".toList "mutating".toList s.toList)).toList
      = u ++ "mutating".toList ++ v
    rw [replaceFirstGo_first "validating".toList "mutating".toList (by decide) u v s.toList hs hmin]
    rfl

/-- Claim C9: every successfully generated authority has IsCA true, the certSign key-usage bit set, common name webhook-ca, a 4096-bit RSA key, and validity window [now, now + validity] with no backdating; the returned PEM encodes exactly that certificate. -/
theorem c9_generateCA (env : GenEnv) (validity : Int)
    (cert : Certificate) (key : RSAKey) (pem : Bytes)
    (h : generateCA env validity = .ok (cert, key, pem)) :
    cert.isCA = true ∧ cert.keyUsage &&& 32 ≠ 0 ∧ cert.subjectCN = "webhook-ca"
      ∧ key.bits = 4096 ∧ cert.pubKeyBits = 4096
      ∧ cert.notBefore = env.now ∧ cert.notAfter = env.now + validity
      ∧ pem = .pemBlock "CERTIFICATE" (.certDER cert) := by
  obtain ⟨ks, sr, cok, pok, n⟩ := env
  cases ks with
  | error e => simp [generateCA] at h
  | ok seed =>
    cases sr with
    | error e => simp [generateCA] at h
    | ok serial =>
      cases cok with
      | false => simp [generateCA, createCertificate] at h
      | true =>
        cases pok with
        | false => simp [generateCA, createCertificate] at h
        | true =>
          simp [generateCA, createCertificate, parseCertificate] at h
          obtain ⟨h1, h2, h3⟩ := h
          subst h1
          subst h2
          subst h3
          refine ⟨rfl, ?_, rfl, rfl, rfl, rfl, rfl, rfl⟩
          show (96 : Nat) &&& 32 ≠ 0
          decide

/-- Claim C8: every successfully generated leaf certificate with a non-empty DNS list has IsCA false, DNSNames equal to the input in length and order, common name equal to the first DNS identity, a 2048-bit RSA key, the serverAuth extended usage, and verifies against its issuing authority under server-auth chain verification. -/
theorem c8_generateServerCert (envCA envLeaf : GenEnv) (vCA v : Int)
    (caCert : Certificate) (caKey : RSAKey) (caPEM : Bytes)
    (dnsNames : List String) (crtPEM keyPEM : Bytes)
    (hca : generateCA envCA vCA = .ok (caCert, caKey, caPEM))
    (hleaf : generateServerCert envLeaf caCert caKey dnsNames v = .ok (crtPEM, keyPEM))
    (hne : dnsNames ≠ [])
    (ht1 : envCA.now ≤ envLeaf.now) (ht2 : envLeaf.now ≤ envCA.now + vCA)
    (hv : 0 ≤ v) :
    ∃ leaf : Certificate,
      crtPEM = .pemBlock "CERTIFICATE" (.certDER leaf)
      ∧ leaf.isCA = false
      ∧ leaf.dnsNames = dnsNames
      ∧ leaf.subjectCN = dnsNames.headD ""
      ∧ leaf.pubKeyBits = 2048
      ∧ leaf.extKeyUsage.contains .serverAuth = true
      ∧ chainVerify caCert leaf envLeaf.now (dnsNames.headD "") = true := by
  obtain ⟨ksA, srA, cokA, pokA, nA⟩ := envCA
  obtain ⟨ksL, srL, cokL, pokL, nL⟩ := envLeaf
  cases ksA with
  | error e => simp [generateCA] at hca
  | ok seedA =>
  cases srA with
  | error e => simp [generateCA] at hca
  | ok serialA =>
  cases cokA with
  | false => simp [generateCA, createCertificate] at hca
  | true =>
  cases pokA with
  | false => simp [generateCA, createCertificate] at hca
  | true =>
  simp only [generateCA, createCertificate, parseCertificate, if_true, ite_true] at hca
  simp only [Except.ok.injEq, Prod.mk.injEq] at hca
  obtain ⟨hc1, hc2, hc3⟩ := hca
  subst hc1
  subst hc2
  cases ksL with
  | error e => simp [generateServerCert] at hleaf
  | ok seedL =>
  cases srL with
  | error e => simp [generateServerCert] at hleaf
  | ok serialL =>
  cases cokL with
  | false => simp [generateServerCert, createCertificate] at hleaf
  | true =>
  simp only [generateServerCert, createCertificate, if_true, ite_true] at hleaf
  simp only [Except.ok.injEq, Prod.mk.injEq] at hleaf
  obtain ⟨hl1, hl2⟩ := hleaf
  subst hl1
  refine ⟨_, rfl, rfl, rfl, rfl, rfl, rfl, ?_⟩
  have hcont := contains_headD dnsNames hne
  simp only [chainVerify, Bool.and_eq_true, beq_iff_eq, bne_iff_ne, ne_eq,
             decide_eq_true_eq]
  simp [hcont, ht1, ht2]
  refine ⟨hv, ?_⟩
  cases dnsNames with
  | nil => exact absurd rfl hne
  | cons a as => simp

/-- Claim C2 counterexample: on a cluster whose primary webhook configuration exists with an empty webhook list, patchWebhookConfig succeeds yet issues no update operation on it, refuting that the update is still issued as a no-op. -/
theorem c2_counterexample :
    (stEmptyVWC.vwcs.lookup "butane-operator-validating-webhook-configuration").isSome = true
    ∧ (patchWebhookConfig stEmptyVWC "butane-operator-validating-webhook-configuration"
        (.raw [9])).1 = .ok ()
    ∧ (patchWebhookConfig stEmptyVWC "butane-operator-validating-webhook-configuration"
        (.raw [9])).2.2.filter Op.isUpdateVWC = [] := by
  refine ⟨rfl, rfl, rfl⟩

/-- Claim C2 (amended): when the primary webhook configuration exists, every entry of its webhook list has its CA bundle overwritten and the update is persisted when the list is non-empty; when the list is empty no update is issued at all (the store object is left untouched), contrary to the original claim that a no-op update is still issued. -/
theorem c2_patch_update_only_nonempty (st : SysState) (n : String) (ca : Bytes)
    (vwc : WebhookConfig)
    (hf : st.faults.getVWC = false) (hl : st.vwcs.lookup n = some vwc) :
    (vwc.webhooks = [] →
      (patchWebhookConfig st n ca).2.2.filter Op.isUpdateVWC = []
      ∧ (patchWebhookConfig st n ca).2.1.vwcs = st.vwcs)
    ∧ (vwc.webhooks ≠ [] → st.faults.updateVWC = false →
      (patchWebhookConfig st n ca).2.2.filter Op.isUpdateVWC = [.updateVWC (patchCfg ca vwc)]
      ∧ (patchWebhookConfig st n ca).2.1.vwcs.lookup n = some (patchCfg ca vwc)) := by
  constructor
  · intro hemp
    rw [patchWebhookConfig_empty_eq st n ca vwc hf hl hemp]
    rcases hM : patchMutatingHalf st (mutatingWebhookName n) ca with ⟨r, st2, ops2⟩
    have hF := patchMutatingHalf_frame st (mutatingWebhookName n) ca
    rw [hM] at hF
    simp only at hF
    dsimp only
    simp [List.filter, Op.isUpdateVWC, hF.2.2.2.2.2.2, hF.2.1]
  · intro hne hupd
    rw [patchWebhookConfig_found_eq st n ca vwc hf hl hne hupd]
    rcases hM : patchMutatingHalf { st with vwcs := setAssoc n (patchCfg ca vwc) st.vwcs } (mutatingWebhookName n) ca with ⟨r, st2, ops2⟩
    have hF := patchMutatingHalf_frame { st with vwcs := setAssoc n (patchCfg ca vwc) st.vwcs } (mutatingWebhookName n) ca
    rw [hM] at hF
    simp only at hF
    dsimp only
    refine ⟨?_, ?_⟩
    · simp [List.filter, Op.isUpdateVWC, hF.2.2.2.2.2.2]
    · rw [hF.2.1]
      exact lookup_setAssoc n (patchCfg ca vwc) st.vwcs

/-- Claim C3: on the reuse path of Ensure (record found, needsRenewal false, no injected faults) the Secret store is byte-identical before and after the call, the filesystem copies are rewritten from the existing record leaf bytes, and both webhook configurations (when present) have every CA bundle patched from the existing record authority bytes. -/
theorem c3_reuse (st : SysState) (cfg : Config) (now : Int)
    (envCA envLeaf : GenEnv) (s : SecretObj)
    (hget : st.faults.getSecret = false)
    (hs : st.secrets.lookup (cfg.nsName, cfg.secretName) = some s)
    (hren : needsRenewal s cfg.renewalThreshold now = false)
    (hd1 : st.faults.mkdirAll = false) (hd2 : st.faults.writeCrt = false)
    (hd3 : st.faults.writeKey = false)
    (hv1 : st.faults.getVWC = false) (hv2 : st.faults.updateVWC = false)
    (hm1 : st.faults.getMWC = false) (hm2 : st.faults.updateMWC = false) :
    (Ensure st cfg now envCA envLeaf).2.1.secrets = st.secrets
    ∧ (Ensure st cfg now envCA envLeaf).2.1.secrets.lookup (cfg.nsName, cfg.secretName) = some s
    ∧ (Ensure st cfg now envCA envLeaf).2.1.disk.lookup (cfg.certDir ++ "/tls.crt")
        = some (s.getD "tls.crt")
    ∧ (Ensure st cfg now envCA envLeaf).2.1.disk.lookup (cfg.certDir ++ "/tls.key")
        = some (s.getD "tls.key")
    ∧ (∀ w, st.vwcs.lookup cfg.webhookConfigName = some w →
        (Ensure st cfg now envCA envLeaf).2.1.vwcs.lookup cfg.webhookConfigName
          = some (patchCfg (s.getD "ca.crt") w))
    ∧ (∀ w w1, st.vwcs.lookup cfg.webhookConfigName = some w →
        st.mwcs.lookup (mutatingWebhookName cfg.webhookConfigName) = some w1 →
        (Ensure st cfg now envCA envLeaf).2.1.mwcs.lookup (mutatingWebhookName cfg.webhookConfigName)
          = some (patchCfg (s.getD "ca.crt") w1)) := by
  rw [ensure_reuse_eq st cfg now envCA envLeaf s hget hs hren,
      writeCertsToDisk_ok st cfg.certDir (s.getD "tls.crt") (s.getD "tls.key") hd1 hd2 hd3]
  dsimp only
  rcases hP : patchWebhookConfig
      { st with dirs := if st.dirs.contains cfg.certDir then st.dirs else cfg.certDir :: st.dirs,
                disk := setAssoc (cfg.certDir ++ "/tls.key") (s.getD "tls.key")
                          (setAssoc (cfg.certDir ++ "/tls.crt") (s.getD "tls.crt") st.disk) }
      cfg.webhookConfigName (s.getD "ca.crt") with ⟨r, st2, ops2⟩
  have hF := patchWebhookConfig_frame
      { st with dirs := if st.dirs.contains cfg.certDir then st.dirs else cfg.certDir :: st.dirs,
                disk := setAssoc (cfg.certDir ++ "/tls.key") (s.getD "tls.key")
                          (setAssoc (cfg.certDir ++ "/tls.crt") (s.getD "tls.crt") st.disk) }
      cfg.webhookConfigName (s.getD "ca.crt")
  rw [hP] at hF
  simp only at hF
  refine ⟨?_, ?_, ?_, ?_, ?_, ?_⟩
  · simp [hF.1]
  · simp [hF.1, hs]
  · rw [hF.2.1]
    rw [lookup_setAssoc_ne _ _ _ _ (crtKeyPathNe cfg.certDir)]
    exact lookup_setAssoc _ _ _
  · rw [hF.2.1]
    exact lookup_setAssoc _ _ _
  · intro w hw
    have hPat := patchWebhookConfig_patches
        { st with dirs := if st.dirs.contains cfg.certDir then st.dirs else cfg.certDir :: st.dirs,
                  disk := setAssoc (cfg.certDir ++ "/tls.key") (s.getD "tls.key")
                            (setAssoc (cfg.certDir ++ "/tls.crt") (s.getD "tls.crt") st.disk) }
        cfg.webhookConfigName (s.getD "ca.crt") w hv1 hv2 hm1 hm2 hw
    rw [hP] at hPat
    exact hPat.1
  · intro w w1 hw hm
    have hPat := patchWebhookConfig_patches
        { st with dirs := if st.dirs.contains cfg.certDir then st.dirs else cfg.certDir :: st.dirs,
                  disk := setAssoc (cfg.certDir ++ "/tls.key") (s.getD "tls.key")
                            (setAssoc (cfg.certDir ++ "/tls.crt") (s.getD "tls.crt") st.disk) }
        cfg.webhookConfigName (s.getD "ca.crt") w hv1 hv2 hm1 hm2 hw
    rw [hP] at hPat
    exact hPat.2 w1 hm

/-- Claim C10: on the reuse path of Ensure no write of any kind, neither create nor update, is issued against the Secret store, and the store is unchanged. -/
theorem c10_reuse_read_only (st : SysState) (cfg : Config) (now : Int)
    (envCA envLeaf : GenEnv) (s : SecretObj)
    (hget : st.faults.getSecret = false)
    (hs : st.secrets.lookup (cfg.nsName, cfg.secretName) = some s)
    (hren : needsRenewal s cfg.renewalThreshold now = false) :
    (Ensure st cfg now envCA envLeaf).2.2.filter Op.isSecretWrite = []
    ∧ (Ensure st cfg now envCA envLeaf).2.1.secrets = st.secrets := by
  rw [ensure_reuse_eq st cfg now envCA envLeaf s hget hs hren]
  rcases hW : writeCertsToDisk st cfg.certDir (s.getD "tls.crt") (s.getD "tls.key")
    with ⟨rw1, st1, ops1⟩
  have hWF := writeCertsToDisk_frame st cfg.certDir (s.getD "tls.crt") (s.getD "tls.key")
  rw [hW] at hWF
  simp only at hWF
  cases rw1 with
  | error e =>
    simp [List.filter, Op.isSecretWrite, hWF.2.2.2.2.1, hWF.1]
  | ok u =>
    rcases hP : patchWebhookConfig st1 cfg.webhookConfigName (s.getD "ca.crt")
      with ⟨r2, st2, ops2⟩
    have hPF := patchWebhookConfig_frame st1 cfg.webhookConfigName (s.getD "ca.crt")
    rw [hP] at hPF
    simp only at hPF
    dsimp only
    rw [hP]
    simp [List.filter, Op.isSecretWrite, List.filter_append,
          hWF.2.2.2.2.1, hWF.1, hPF.2.2.2.2, hPF.1]

/-- Claim C6: patchWebhookConfig succeeds exactly when the primary configuration is fetched successfully (a not-found on it is fatal), its update (issued only for a non-empty list) succeeds, and the secondary fetch either hits not-found (skipped silently) or succeeds together with its update; on the reuse path the result of Ensure is exactly the result of the trust-propagation step. -/
theorem c6_trust_propagation :
    (∀ (st : SysState) (n : String) (ca : Bytes),
        ((patchWebhookConfig st n ca).1 = .ok ()) ↔
          (st.faults.getVWC = false
           ∧ (∃ w, st.vwcs.lookup n = some w
                ∧ (w.webhooks = [] ∨ st.faults.updateVWC = false))
           ∧ st.faults.getMWC = false
           ∧ (st.mwcs.lookup (mutatingWebhookName n) = none
                ∨ st.faults.updateMWC = false)))
    ∧ (∀ (st : SysState) (cfg : Config) (now : Int) (envCA envLeaf : GenEnv) (s : SecretObj),
        st.faults.getSecret = false →
        st.secrets.lookup (cfg.nsName, cfg.secretName) = some s →
        needsRenewal s cfg.renewalThreshold now = false →
        st.faults.mkdirAll = false → st.faults.writeCrt = false → st.faults.writeKey = false →
        (Ensure st cfg now envCA envLeaf).1
          = (patchWebhookConfig
              (writeCertsToDisk st cfg.certDir (s.getD "tls.crt") (s.getD "tls.key")).2.1
              cfg.webhookConfigName (s.getD "ca.crt")).1) := by
  constructor
  · exact patchWebhookConfig_ok_iff
  · intro st cfg now envCA envLeaf s hget hs hren hd1 hd2 hd3
    rw [ensure_reuse_eq st cfg now envCA envLeaf s hget hs hren,
        writeCertsToDisk_ok st cfg.certDir (s.getD "tls.crt") (s.getD "tls.key") hd1 hd2 hd3]

/-- Claim C7: when Ensure regenerates, persisting the record is an upsert: with a prior record the single store write is an update carrying the existing resourceVersion forward; with no prior record the single store write is a plain create with an empty resourceVersion. -/
theorem c7_upsert :
    (∀ (st : SysState) (cfg : Config) (now : Int) (envCA envLeaf : GenEnv) (s : SecretObj)
       (caCert : Certificate) (caKey : RSAKey) (caPEM crtPEM keyPEM : Bytes),
        st.faults.getSecret = false →
        st.secrets.lookup (cfg.nsName, cfg.secretName) = some s →
        needsRenewal s cfg.renewalThreshold now = true →
        s.name ≠ "" → st.faults.updateSecret = false →
        generateCA envCA cfg.certValidity = .ok (caCert, caKey, caPEM) →
        generateServerCert envLeaf caCert caKey
          (dnsNamesForService cfg.serviceName cfg.nsName) cfg.certValidity
          = .ok (crtPEM, keyPEM) →
        (Ensure st cfg now envCA envLeaf).2.2.filter Op.isSecretWrite
          = [.updateSecret cfg.nsName
              { name := cfg.secretName, nsName := cfg.nsName,
                resourceVersion := s.resourceVersion, secretType := "kubernetes.io/tls",
                data := [("ca.crt", caPEM), ("tls.crt", crtPEM), ("tls.key", keyPEM)] }]
        ∧ (Ensure st cfg now envCA envLeaf).2.1.secrets.lookup (cfg.nsName, cfg.secretName)
          = some { name := cfg.secretName, nsName := cfg.nsName,
                   resourceVersion := s.resourceVersion, secretType := "kubernetes.io/tls",
                   data := [("ca.crt", caPEM), ("tls.crt", crtPEM), ("tls.key", keyPEM)] })
    ∧ (∀ (st : SysState) (cfg : Config) (now : Int) (envCA envLeaf : GenEnv)
       (caCert : Certificate) (caKey : RSAKey) (caPEM crtPEM keyPEM : Bytes),
        st.faults.getSecret = false →
        st.secrets.lookup (cfg.nsName, cfg.secretName) = none →
        st.faults.createSecret = false →
        generateCA envCA cfg.certValidity = .ok (caCert, caKey, caPEM) →
        generateServerCert envLeaf caCert caKey
          (dnsNamesForService cfg.serviceName cfg.nsName) cfg.certValidity
          = .ok (crtPEM, keyPEM) →
        (Ensure st cfg now envCA envLeaf).2.2.filter Op.isSecretWrite
          = [.createSecret cfg.nsName
              { name := cfg.secretName, nsName := cfg.nsName,
                resourceVersion := "", secretType := "kubernetes.io/tls",
                data := [("ca.crt", caPEM), ("tls.crt", crtPEM), ("tls.key", keyPEM)] }]
        ∧ (Ensure st cfg now envCA envLeaf).2.1.secrets.lookup (cfg.nsName, cfg.secretName)
          = some { name := cfg.secretName, nsName := cfg.nsName,
                   resourceVersion := "", secretType := "kubernetes.io/tls",
                   data := [("ca.crt", caPEM), ("tls.crt", crtPEM), ("tls.key", keyPEM)] }) := by
  constructor
  · intro st cfg now envCA envLeaf s caCert caKey caPEM crtPEM keyPEM
      hget hs hren hname hupd hca hleaf
    rw [ensure_renew_eq st cfg now envCA envLeaf s hget hs hren]
    exact ensureGenerate_update st cfg s (dnsNamesForService cfg.serviceName cfg.nsName)
      envCA envLeaf [.getSecret cfg.nsName cfg.secretName] caCert caKey caPEM crtPEM keyPEM
      hca hleaf hname hupd (by simp [List.filter, Op.isSecretWrite])
  · intro st cfg now envCA envLeaf caCert caKey caPEM crtPEM keyPEM
      hget hs hcre hca hleaf
    rw [ensure_notfound_eq st cfg now envCA envLeaf hget hs]
    exact ensureGenerate_create st cfg (dnsNamesForService cfg.serviceName cfg.nsName)
      envCA envLeaf [.getSecret cfg.nsName cfg.secretName] caCert caKey caPEM crtPEM keyPEM
      hca hleaf hs hcre (by simp [List.filter, Op.isSecretWrite])

theorem c1_witness : renewalRequiredSpec (secretFix 120) 30 100 :=
  (c1_needsRenewal (secretFix 120) 30 100).mp (by decide)

theorem c2_witness :
    (patchWebhookConfig (stFix 1000) "butane-operator-validating-webhook-configuration"
        (.raw [9])).2.2.filter Op.isUpdateVWC
      = [.updateVWC (patchCfg (.raw [9]) vwcFix)]
    ∧ (patchWebhookConfig (stFix 1000) "butane-operator-validating-webhook-configuration"
        (.raw [9])).2.1.vwcs.lookup "butane-operator-validating-webhook-configuration"
      = some (patchCfg (.raw [9]) vwcFix) :=
  (c2_patch_update_only_nonempty (stFix 1000)
      "butane-operator-validating-webhook-configuration" (.raw [9]) vwcFix
      (by decide) (by decide)).2 (by decide) (by decide)

theorem c3_witness :
    (Ensure (stFix 1000) cfgFix 100 (envFix 5 6 100) (envFix 7 8 100)).2.1.secrets
      = (stFix 1000).secrets :=
  (c3_reuse (stFix 1000) cfgFix 100 (envFix 5 6 100) (envFix 7 8 100) (secretFix 1000)
    (by decide) (by decide) (by decide) (by decide) (by decide) (by decide)
    (by decide) (by decide) (by decide) (by decide)).1

theorem c5_witness : mutatingWebhookName "plain-name" = "plain-name" :=
  c5_mutatingWebhookName.2.2.1 "plain-name" (by decide)

theorem c6_witness :
    (Ensure (stFix 1000) cfgFix 100 (envFix 5 6 100) (envFix 7 8 100)).1
      = (patchWebhookConfig
          (writeCertsToDisk (stFix 1000) cfgFix.certDir
            ((secretFix 1000).getD "tls.crt") ((secretFix 1000).getD "tls.key")).2.1
          cfgFix.webhookConfigName ((secretFix 1000).getD "ca.crt")).1 :=
  c6_trust_propagation.2 (stFix 1000) cfgFix 100 (envFix 5 6 100) (envFix 7 8 100)
    (secretFix 1000) (by decide) (by decide) (by decide) (by decide) (by decide) (by decide)

theorem c7_witness :
    (Ensure (stFix 120) cfgFix 100 (envFix 5 6 100) (envFix 7 8 100)).2.2.filter
        Op.isSecretWrite
      = [.updateSecret "my-ns" secUFix]
    ∧ (Ensure (stFix 120) cfgFix 100 (envFix 5 6 100) (envFix 7 8 100)).2.1.secrets.lookup
        ("my-ns", "webhook-server-cert")
      = some secUFix :=
  c7_upsert.1 (stFix 120) cfgFix 100 (envFix 5 6 100) (envFix 7 8 100) (secretFix 120)
    caCertFix caKeyFix caPEMFix crtPEMFix keyPEMFix
    (by decide) (by decide) (by decide) (by decide) (by decide) (by decide) (by decide)

theorem c8_witness :
    ∃ leaf : Certificate,
      crtPEMFix = .pemBlock "CERTIFICATE" (.certDER leaf)
      ∧ leaf.isCA = false
      ∧ leaf.dnsNames = dnsNamesForService "webhook-service" "my-ns"
      ∧ leaf.subjectCN = (dnsNamesForService "webhook-service" "my-ns").headD ""
      ∧ leaf.pubKeyBits = 2048
      ∧ leaf.extKeyUsage.contains .serverAuth = true
      ∧ chainVerify caCertFix leaf (envFix 7 8 100).now
          ((dnsNamesForService "webhook-service" "my-ns").headD "") = true :=
  c8_generateServerCert (envFix 5 6 100) (envFix 7 8 100) 1000 1000
    caCertFix caKeyFix caPEMFix (dnsNamesForService "webhook-service" "my-ns")
    crtPEMFix keyPEMFix (by decide) (by decide) (by decide) (by decide) (by decide) (by decide)

theorem c9_witness :
    caCertFix.isCA = true ∧ caCertFix.keyUsage &&& 32 ≠ 0
      ∧ caCertFix.subjectCN = "webhook-ca"
      ∧ caKeyFix.bits = 4096 ∧ caCertFix.pubKeyBits = 4096
      ∧ caCertFix.notBefore = (envFix 5 6 100).now
      ∧ caCertFix.notAfter = (envFix 5 6 100).now + 1000
      ∧ caPEMFix = .pemBlock "CERTIFICATE" (.certDER caCertFix) :=
  c9_generateCA (envFix 5 6 100) 1000 caCertFix caKeyFix caPEMFix (by decide)

theorem c10_witness :
    (Ensure (stFix 1000) cfgFix 100 (envFix 5 6 100) (envFix 7 8 100)).2.2.filter
        Op.isSecretWrite = []
    ∧ (Ensure (stFix 1000) cfgFix 100 (envFix 5 6 100) (envFix 7 8 100)).2.1.secrets
        = (stFix 1000).secrets :=
  c10_reuse_read_only (stFix 1000) cfgFix 100 (envFix 5 6 100) (envFix 7 8 100)
    (secretFix 1000) (by decide) (by decide) (by decide)

end Certs
